import Mathlib

/-!
Verification development for the TensorFlowOnSpark `mnist_spark` notebook
(`src/examples/mnist/mnist_spark.ipynb`).

The notebook is orchestration glue: an `argparse` configuration builder,
`rm -rf` cleanup calls, Spark-RDD data ingestion (`textFile` / `map` / `zip`),
and calls into the `TFCluster` API (`run`, `train`, `inference`, `shutdown`).
Pure pieces are embedded directly from the notebook cells; the parts of the
repository that are not shipped alongside the notebook (`TFCluster`,
`mnist_dist`) and the external tools (`rm`, Spark's `zip`) are modelled from
the specification, each marked `Modelled from the spec:` in its doc comment.
-/

namespace MnistSpark

/-! ## Python values and the configuration record

`argparse` is dynamically typed: `args.rdma` holds the boolean default
`False` when the flag is absent, but the raw string token when the flag is
supplied, because `parser.add_argument("--rdma", ...)` declares no `type`.
`PyVal` captures exactly this dynamic union. -/

inductive PyVal where
  | bool (b : Bool)
  | str (s : String)
deriving Repr, DecidableEq

/-- Tests whether a dynamic Python value is a boolean. -/
def PyVal.isBool : PyVal → Bool
  | .bool _ => true
  | .str _ => false

/-- The run-configuration record built by the notebook's `argparse` parser
(cell 7 of `mnist_spark.ipynb`). Field names follow the `add_argument`
destinations. -/
structure Config where
  batch_size : Int
  epochs : Int
  format : String
  images : Option String
  labels : Option String
  mode : String
  model : String
  output : String
  readers : Int
  rdma : PyVal
  steps : Int
  tensorboard : Bool
deriving Repr, DecidableEq

/-- The defaults declared in cell 7: `batch_size=100`, `epochs=1`,
`format="csv"`, no default for `images`/`labels`, `mode="train"`,
`model="mnist_model"`, `output="predictions"`, `readers=1`, `rdma=False`,
`steps=1000`, `tensorboard` is a `store_true` flag defaulting to `False`. -/
def defaultConfig : Config :=
  { batch_size := 100
    epochs := 1
    format := "csv"
    images := none
    labels := none
    mode := "train"
    model := "mnist_model"
    output := "predictions"
    readers := 1
    rdma := .bool false
    steps := 1000
    tensorboard := false }

/-! ## Numeric coercions

`argparse` applies `int(token)` for the four `type=int` flags. We embed
Python's `int()` restricted to an optional sign followed by decimal digits,
which covers every command-line numeral. -/

/-- Accumulating decimal read of a digit list; `none` on any non-digit. -/
def digitsToNat : List Char → Nat → Option Nat
  | [], acc => some acc
  | c :: cs, acc =>
      if c.isDigit then digitsToNat cs (acc * 10 + (c.toNat - 48)) else none

/-- Python `int(s)`: optional `+`/`-` sign, then at least one decimal digit. -/
def pyInt (s : String) : Option Int :=
  match s.toList with
  | [] => none
  | '-' :: rest =>
      if rest.isEmpty then none
      else (digitsToNat rest 0).map (fun n => -(n : Int))
  | '+' :: rest =>
      if rest.isEmpty then none
      else (digitsToNat rest 0).map (fun n => (n : Int))
  | l => (digitsToNat l 0).map (fun n => (n : Int))

/-! ## The argument parser -/

/-- Failure conditions of the configuration builder: `argparse` aborts on a
token that fails its declared `int` coercion, a choice outside the declared
`choices` list, a flag missing its value, or an unrecognized token. -/
inductive ArgError where
  | invalidInt (flag v : String)
  | invalidChoice (flag v : String)
  | expectedOneArgument (flag : String)
  | unrecognized (tok : String)
deriving Repr, DecidableEq

/-- The declared `choices` of `--format` in cell 7: `["csv","pickle","tfr"]`. -/
def formatChoices : List String := ["csv", "pickle", "tfr"]

/-- The eleven flags of cell 7 that consume one value token
(every flag except the `store_true` flag `--tensorboard`). -/
def valuedFlags : List String :=
  ["--batch_size", "--epochs", "--format", "--images", "--labels",
   "--mode", "--model", "--output", "--readers", "--rdma", "--steps"]

/-- One recognized flag applied to its value token, exactly as cell 7
declares it: `int` coercion for `batch_size`/`epochs`/`readers`/`steps`,
a choices check for `format` only (`--mode` declares no choices and accepts
any string), plain strings for the path-like flags, and no coercion at all
for `--rdma`, whose supplied value therefore stays a raw string. -/
def applyFlag (flag v : String) (cfg : Config) : Except ArgError Config :=
  if flag = "--batch_size" then
    match pyInt v with
    | some n => .ok { cfg with batch_size := n }
    | none => .error (.invalidInt flag v)
  else if flag = "--epochs" then
    match pyInt v with
    | some n => .ok { cfg with epochs := n }
    | none => .error (.invalidInt flag v)
  else if flag = "--format" then
    if v ∈ formatChoices then .ok { cfg with format := v }
    else .error (.invalidChoice flag v)
  else if flag = "--images" then .ok { cfg with images := some v }
  else if flag = "--labels" then .ok { cfg with labels := some v }
  else if flag = "--mode" then .ok { cfg with mode := v }
  else if flag = "--model" then .ok { cfg with model := v }
  else if flag = "--output" then .ok { cfg with output := v }
  else if flag = "--readers" then
    match pyInt v with
    | some n => .ok { cfg with readers := n }
    | none => .error (.invalidInt flag v)
  else if flag = "--rdma" then .ok { cfg with rdma := .str v }
  else if flag = "--steps" then
    match pyInt v with
    | some n => .ok { cfg with steps := n }
    | none => .error (.invalidInt flag v)
  else .error (.unrecognized flag)

/-- Left-to-right traversal of the token list, threading the configuration
record: `--tensorboard` consumes no value (`store_true`); every other
recognized flag consumes the following token as its value; later occurrences
overwrite earlier ones, as in `argparse`. -/
def parseArgsFrom : List String → Config → Except ArgError Config
  | [], cfg => .ok cfg
  | tok :: rest, cfg =>
      if tok = "--tensorboard" then
        parseArgsFrom rest { cfg with tensorboard := true }
      else
        match rest with
        | [] =>
            if tok ∈ valuedFlags then .error (.expectedOneArgument tok)
            else .error (.unrecognized tok)
        | v :: rest2 =>
            match applyFlag tok v cfg with
            | .ok cfg2 => parseArgsFrom rest2 cfg2
            | .error e => .error e

/-- The configuration builder `parser.parse_args(tokens)` of cell 7,
starting from the declared defaults. -/
def parse_args (tokens : List String) : Except ArgError Config :=
  parseArgsFrom tokens defaultConfig

example : parse_args [] = .ok defaultConfig := rfl

example :
    parse_args ["--mode", "train", "--steps", "600", "--epochs", "1",
                "--images", "csv/train/images", "--labels", "csv/train/labels"] =
      .ok { defaultConfig with
              mode := "train", steps := 600, epochs := 1,
              images := some "csv/train/images",
              labels := some "csv/train/labels" } := rfl

example : parse_args ["--epochs", "x"] = .error (.invalidInt "--epochs" "x") := rfl

example : parse_args ["--format", "json"] = .error (.invalidChoice "--format" "json") := rfl

example : parse_args ["--mode", "bogus"] = .ok { defaultConfig with mode := "bogus" } := rfl

example : parse_args ["--rdma", "True"] = .ok { defaultConfig with rdma := .str "True" } := rfl

/-! ## Structured argument lists

To quantify over "every valid list of argument tokens" we present a token
list as a list of arguments, each a flag paired with its value token
(`none` for the bare `store_true` flag), and flatten it. -/

/-- One command-line argument: a flag with its value token, or a bare flag. -/
abbrev Arg := String × Option String

/-- Flattening a structured argument list into the raw token list handed to
the configuration builder. -/
def toTokens : List Arg → List String
  | [] => []
  | (f, some v) :: rest => f :: v :: toTokens rest
  | (f, none) :: rest => f :: toTokens rest

/-- Well-formed argument lists: the bare flag `--tensorboard` carries no
value token and every value-taking flag carries one.  Under this shape the
parser's traversal re-segments the flat token list into exactly these
arguments. -/
def wfArgs (l : List Arg) : Prop :=
  ∀ p ∈ l, (p.1 = "--tensorboard" → p.2 = none) ∧ (p.1 ∈ valuedFlags → p.2 ≠ none)

instance (l : List Arg) : Decidable (wfArgs l) :=
  inferInstanceAs (Decidable (∀ p ∈ l,
    (p.1 = "--tensorboard" → p.2 = none) ∧ (p.1 ∈ valuedFlags → p.2 ≠ none)))

/-- The value of the last occurrence of `flag`, the occurrence `argparse`
lets win. -/
def suppliedVal (flag : String) : List Arg → Option String
  | [] => none
  | p :: rest =>
      match suppliedVal flag rest with
      | some w => some w
      | none => if p.1 = flag then p.2 else none

/-- Whether `flag` occurs at all in the argument list. -/
def hasFlag (flag : String) : List Arg → Bool
  | [] => false
  | p :: rest => if p.1 = flag then true else hasFlag flag rest

/-- Field specification for an `int`-coerced flag: the given default when
the flag is absent, otherwise the successful `int` coercion of the last
supplied value. -/
def intFieldSpec (flag : String) (l : List Arg) (dflt actual : Int) : Prop :=
  match suppliedVal flag l with
  | none => actual = dflt
  | some v => pyInt v = some actual

/-- Field specification for an uncoerced string flag. -/
def strFieldSpec (flag : String) (l : List Arg) (dflt actual : String) : Prop :=
  match suppliedVal flag l with
  | none => actual = dflt
  | some v => actual = v

/-- Field specification for a string flag with no declared default
(`--images`, `--labels`): `argparse` stores `None` when absent. -/
def optFieldSpec (flag : String) (l : List Arg) (dflt actual : Option String) : Prop :=
  match suppliedVal flag l with
  | none => actual = dflt
  | some v => actual = some v

/-- Field specification for `--rdma`, which declares no type coercion: the
given default when absent, the raw string when supplied. -/
def rdmaFieldSpec (l : List Arg) (dflt actual : PyVal) : Prop :=
  match suppliedVal "--rdma" l with
  | none => actual = dflt
  | some v => actual = .str v

theorem suppliedVal_cons_ne {f flag : String} {v : Option String} {rest : List Arg}
    (h : f ≠ flag) : suppliedVal flag ((f, v) :: rest) = suppliedVal flag rest := by
  simp only [suppliedVal]
  cases hs : suppliedVal flag rest <;> simp [hs, h]

theorem hasFlag_cons_ne {f flag : String} {v : Option String} {rest : List Arg}
    (h : f ≠ flag) : hasFlag flag ((f, v) :: rest) = hasFlag flag rest := by
  simp [hasFlag, h]

theorem intFieldSpec_cons_ne {f flag : String} {v : Option String} {rest : List Arg}
    {d a : Int} (h : f ≠ flag) :
    intFieldSpec flag ((f, v) :: rest) d a ↔ intFieldSpec flag rest d a := by
  unfold intFieldSpec
  rw [suppliedVal_cons_ne h]

theorem strFieldSpec_cons_ne {f flag : String} {v : Option String} {rest : List Arg}
    {d a : String} (h : f ≠ flag) :
    strFieldSpec flag ((f, v) :: rest) d a ↔ strFieldSpec flag rest d a := by
  unfold strFieldSpec
  rw [suppliedVal_cons_ne h]

theorem optFieldSpec_cons_ne {f flag : String} {v : Option String} {rest : List Arg}
    {d a : Option String} (h : f ≠ flag) :
    optFieldSpec flag ((f, v) :: rest) d a ↔ optFieldSpec flag rest d a := by
  unfold optFieldSpec
  rw [suppliedVal_cons_ne h]

theorem rdmaFieldSpec_cons_ne {f : String} {v : Option String} {rest : List Arg}
    {d a : PyVal} (h : f ≠ "--rdma") :
    rdmaFieldSpec ((f, v) :: rest) d a ↔ rdmaFieldSpec rest d a := by
  unfold rdmaFieldSpec
  rw [suppliedVal_cons_ne h]

theorem intFieldSpec_cons_self {flag w : String} {rest : List Arg} {n d a : Int}
    (hpy : pyInt w = some n) (hs : intFieldSpec flag rest n a) :
    intFieldSpec flag ((flag, some w) :: rest) d a := by
  unfold intFieldSpec at *
  unfold suppliedVal
  cases h : suppliedVal flag rest with
  | none => rw [h] at hs; simp only [h]; simp [hpy, hs]
  | some w2 => rw [h] at hs; simpa [h] using hs

theorem strFieldSpec_cons_self {flag w : String} {rest : List Arg} {d a : String}
    (hs : strFieldSpec flag rest w a) :
    strFieldSpec flag ((flag, some w) :: rest) d a := by
  unfold strFieldSpec at *
  unfold suppliedVal
  cases h : suppliedVal flag rest with
  | none => rw [h] at hs; simp [h, hs]
  | some w2 => rw [h] at hs; simpa [h] using hs

theorem optFieldSpec_cons_self {flag w : String} {rest : List Arg} {d a : Option String}
    (hs : optFieldSpec flag rest (some w) a) :
    optFieldSpec flag ((flag, some w) :: rest) d a := by
  unfold optFieldSpec at *
  unfold suppliedVal
  cases h : suppliedVal flag rest with
  | none => rw [h] at hs; simp [h, hs]
  | some w2 => rw [h] at hs; simpa [h] using hs

theorem rdmaFieldSpec_cons_self {w : String} {rest : List Arg} {d a : PyVal}
    (hs : rdmaFieldSpec rest (.str w) a) :
    rdmaFieldSpec (("--rdma", some w) :: rest) d a := by
  unfold rdmaFieldSpec at *
  unfold suppliedVal
  cases h : suppliedVal "--rdma" rest with
  | none => rw [h] at hs; simp [h, hs]
  | some w2 => rw [h] at hs; simpa [h] using hs

theorem applyFlag_not_valued {f : String} (h : f ∉ valuedFlags) (v : String) (c : Config) :
    applyFlag f v c = .error (.unrecognized f) := by
  simp only [valuedFlags, List.mem_cons, List.not_mem_nil, or_false, not_or] at h
  obtain ⟨h1, h2, h3, h4, h5, h6, h7, h8, h9, h10, h11⟩ := h
  simp [applyFlag, h1, h2, h3, h4, h5, h6, h7, h8, h9, h10, h11]


/-- Core accumulator lemma for the configuration builder: a successful parse
of a well-formed argument list relates every field of the result to the last
supplied value (with its declared coercion) or to the starting record's
field. -/
theorem parseArgsFrom_fields :
    ∀ (l : List Arg) (c cfg : Config), wfArgs l →
      parseArgsFrom (toTokens l) c = .ok cfg →
      intFieldSpec "--batch_size" l c.batch_size cfg.batch_size ∧
      intFieldSpec "--epochs" l c.epochs cfg.epochs ∧
      strFieldSpec "--format" l c.format cfg.format ∧
      optFieldSpec "--images" l c.images cfg.images ∧
      optFieldSpec "--labels" l c.labels cfg.labels ∧
      strFieldSpec "--mode" l c.mode cfg.mode ∧
      strFieldSpec "--model" l c.model cfg.model ∧
      strFieldSpec "--output" l c.output cfg.output ∧
      intFieldSpec "--readers" l c.readers cfg.readers ∧
      rdmaFieldSpec l c.rdma cfg.rdma ∧
      intFieldSpec "--steps" l c.steps cfg.steps ∧
      cfg.tensorboard = (hasFlag "--tensorboard" l || c.tensorboard) := by
  intro l
  induction l with
  | nil =>
    intro c cfg _ hp
    simp only [toTokens, parseArgsFrom] at hp
    injection hp with h
    subst h
    simp [intFieldSpec, strFieldSpec, optFieldSpec, rdmaFieldSpec, suppliedVal, hasFlag]
  | cons p rest ih =>
    obtain ⟨f, v⟩ := p
    intro c cfg hwf hp
    have hwfr : wfArgs rest := fun q hq => hwf q (List.mem_cons_of_mem _ hq)
    have hhead := hwf (f, v) (List.mem_cons_self _ _)
    cases v with
    | some w =>
      by_cases hf1 : f = "--batch_size"
      · subst hf1
        simp [toTokens, parseArgsFrom, applyFlag] at hp
        cases hpy : pyInt w with
        | none => simp [hpy] at hp
        | some n =>
          simp [hpy] at hp
          obtain ⟨hB, hE, hF, hI, hL, hM, hMo, hO, hR, hRd, hS, hT⟩ := ih _ cfg hwfr hp
          refine ⟨?_, ?_, ?_, ?_, ?_, ?_, ?_, ?_, ?_, ?_, ?_, ?_⟩
          · exact intFieldSpec_cons_self hpy hB
          · exact (intFieldSpec_cons_ne (by decide)).mpr hE
          · exact (strFieldSpec_cons_ne (by decide)).mpr hF
          · exact (optFieldSpec_cons_ne (by decide)).mpr hI
          · exact (optFieldSpec_cons_ne (by decide)).mpr hL
          · exact (strFieldSpec_cons_ne (by decide)).mpr hM
          · exact (strFieldSpec_cons_ne (by decide)).mpr hMo
          · exact (strFieldSpec_cons_ne (by decide)).mpr hO
          · exact (intFieldSpec_cons_ne (by decide)).mpr hR
          · exact (rdmaFieldSpec_cons_ne (by decide)).mpr hRd
          · exact (intFieldSpec_cons_ne (by decide)).mpr hS
          · rw [hasFlag_cons_ne (by decide)]; exact hT
      by_cases hf2 : f = "--epochs"
      · subst hf2
        simp [toTokens, parseArgsFrom, applyFlag] at hp
        cases hpy : pyInt w with
        | none => simp [hpy] at hp
        | some n =>
          simp [hpy] at hp
          obtain ⟨hB, hE, hF, hI, hL, hM, hMo, hO, hR, hRd, hS, hT⟩ := ih _ cfg hwfr hp
          refine ⟨?_, ?_, ?_, ?_, ?_, ?_, ?_, ?_, ?_, ?_, ?_, ?_⟩
          · exact (intFieldSpec_cons_ne (by decide)).mpr hB
          · exact intFieldSpec_cons_self hpy hE
          · exact (strFieldSpec_cons_ne (by decide)).mpr hF
          · exact (optFieldSpec_cons_ne (by decide)).mpr hI
          · exact (optFieldSpec_cons_ne (by decide)).mpr hL
          · exact (strFieldSpec_cons_ne (by decide)).mpr hM
          · exact (strFieldSpec_cons_ne (by decide)).mpr hMo
          · exact (strFieldSpec_cons_ne (by decide)).mpr hO
          · exact (intFieldSpec_cons_ne (by decide)).mpr hR
          · exact (rdmaFieldSpec_cons_ne (by decide)).mpr hRd
          · exact (intFieldSpec_cons_ne (by decide)).mpr hS
          · rw [hasFlag_cons_ne (by decide)]; exact hT
      by_cases hf3 : f = "--format"
      · subst hf3
        by_cases hw : w ∈ formatChoices
        · simp [toTokens, parseArgsFrom, applyFlag, hw] at hp
          obtain ⟨hB, hE, hF, hI, hL, hM, hMo, hO, hR, hRd, hS, hT⟩ := ih _ cfg hwfr hp
          refine ⟨?_, ?_, ?_, ?_, ?_, ?_, ?_, ?_, ?_, ?_, ?_, ?_⟩
          · exact (intFieldSpec_cons_ne (by decide)).mpr hB
          · exact (intFieldSpec_cons_ne (by decide)).mpr hE
          · exact strFieldSpec_cons_self hF
          · exact (optFieldSpec_cons_ne (by decide)).mpr hI
          · exact (optFieldSpec_cons_ne (by decide)).mpr hL
          · exact (strFieldSpec_cons_ne (by decide)).mpr hM
          · exact (strFieldSpec_cons_ne (by decide)).mpr hMo
          · exact (strFieldSpec_cons_ne (by decide)).mpr hO
          · exact (intFieldSpec_cons_ne (by decide)).mpr hR
          · exact (rdmaFieldSpec_cons_ne (by decide)).mpr hRd
          · exact (intFieldSpec_cons_ne (by decide)).mpr hS
          · rw [hasFlag_cons_ne (by decide)]; exact hT
        · simp [toTokens, parseArgsFrom, applyFlag, hw] at hp
      by_cases hf4 : f = "--images"
      · subst hf4
        simp [toTokens, parseArgsFrom, applyFlag] at hp
        obtain ⟨hB, hE, hF, hI, hL, hM, hMo, hO, hR, hRd, hS, hT⟩ := ih _ cfg hwfr hp
        refine ⟨?_, ?_, ?_, ?_, ?_, ?_, ?_, ?_, ?_, ?_, ?_, ?_⟩
        · exact (intFieldSpec_cons_ne (by decide)).mpr hB
        · exact (intFieldSpec_cons_ne (by decide)).mpr hE
        · exact (strFieldSpec_cons_ne (by decide)).mpr hF
        · exact optFieldSpec_cons_self hI
        · exact (optFieldSpec_cons_ne (by decide)).mpr hL
        · exact (strFieldSpec_cons_ne (by decide)).mpr hM
        · exact (strFieldSpec_cons_ne (by decide)).mpr hMo
        · exact (strFieldSpec_cons_ne (by decide)).mpr hO
        · exact (intFieldSpec_cons_ne (by decide)).mpr hR
        · exact (rdmaFieldSpec_cons_ne (by decide)).mpr hRd
        · exact (intFieldSpec_cons_ne (by decide)).mpr hS
        · rw [hasFlag_cons_ne (by decide)]; exact hT
      by_cases hf5 : f = "--labels"
      · subst hf5
        simp [toTokens, parseArgsFrom, applyFlag] at hp
        obtain ⟨hB, hE, hF, hI, hL, hM, hMo, hO, hR, hRd, hS, hT⟩ := ih _ cfg hwfr hp
        refine ⟨?_, ?_, ?_, ?_, ?_, ?_, ?_, ?_, ?_, ?_, ?_, ?_⟩
        · exact (intFieldSpec_cons_ne (by decide)).mpr hB
        · exact (intFieldSpec_cons_ne (by decide)).mpr hE
        · exact (strFieldSpec_cons_ne (by decide)).mpr hF
        · exact (optFieldSpec_cons_ne (by decide)).mpr hI
        · exact optFieldSpec_cons_self hL
        · exact (strFieldSpec_cons_ne (by decide)).mpr hM
        · exact (strFieldSpec_cons_ne (by decide)).mpr hMo
        · exact (strFieldSpec_cons_ne (by decide)).mpr hO
        · exact (intFieldSpec_cons_ne (by decide)).mpr hR
        · exact (rdmaFieldSpec_cons_ne (by decide)).mpr hRd
        · exact (intFieldSpec_cons_ne (by decide)).mpr hS
        · rw [hasFlag_cons_ne (by decide)]; exact hT
      by_cases hf6 : f = "--mode"
      · subst hf6
        simp [toTokens, parseArgsFrom, applyFlag] at hp
        obtain ⟨hB, hE, hF, hI, hL, hM, hMo, hO, hR, hRd, hS, hT⟩ := ih _ cfg hwfr hp
        refine ⟨?_, ?_, ?_, ?_, ?_, ?_, ?_, ?_, ?_, ?_, ?_, ?_⟩
        · exact (intFieldSpec_cons_ne (by decide)).mpr hB
        · exact (intFieldSpec_cons_ne (by decide)).mpr hE
        · exact (strFieldSpec_cons_ne (by decide)).mpr hF
        · exact (optFieldSpec_cons_ne (by decide)).mpr hI
        · exact (optFieldSpec_cons_ne (by decide)).mpr hL
        · exact strFieldSpec_cons_self hM
        · exact (strFieldSpec_cons_ne (by decide)).mpr hMo
        · exact (strFieldSpec_cons_ne (by decide)).mpr hO
        · exact (intFieldSpec_cons_ne (by decide)).mpr hR
        · exact (rdmaFieldSpec_cons_ne (by decide)).mpr hRd
        · exact (intFieldSpec_cons_ne (by decide)).mpr hS
        · rw [hasFlag_cons_ne (by decide)]; exact hT
      by_cases hf7 : f = "--model"
      · subst hf7
        simp [toTokens, parseArgsFrom, applyFlag] at hp
        obtain ⟨hB, hE, hF, hI, hL, hM, hMo, hO, hR, hRd, hS, hT⟩ := ih _ cfg hwfr hp
        refine ⟨?_, ?_, ?_, ?_, ?_, ?_, ?_, ?_, ?_, ?_, ?_, ?_⟩
        · exact (intFieldSpec_cons_ne (by decide)).mpr hB
        · exact (intFieldSpec_cons_ne (by decide)).mpr hE
        · exact (strFieldSpec_cons_ne (by decide)).mpr hF
        · exact (optFieldSpec_cons_ne (by decide)).mpr hI
        · exact (optFieldSpec_cons_ne (by decide)).mpr hL
        · exact (strFieldSpec_cons_ne (by decide)).mpr hM
        · exact strFieldSpec_cons_self hMo
        · exact (strFieldSpec_cons_ne (by decide)).mpr hO
        · exact (intFieldSpec_cons_ne (by decide)).mpr hR
        · exact (rdmaFieldSpec_cons_ne (by decide)).mpr hRd
        · exact (intFieldSpec_cons_ne (by decide)).mpr hS
        · rw [hasFlag_cons_ne (by decide)]; exact hT
      by_cases hf8 : f = "--output"
      · subst hf8
        simp [toTokens, parseArgsFrom, applyFlag] at hp
        obtain ⟨hB, hE, hF, hI, hL, hM, hMo, hO, hR, hRd, hS, hT⟩ := ih _ cfg hwfr hp
        refine ⟨?_, ?_, ?_, ?_, ?_, ?_, ?_, ?_, ?_, ?_, ?_, ?_⟩
        · exact (intFieldSpec_cons_ne (by decide)).mpr hB
        · exact (intFieldSpec_cons_ne (by decide)).mpr hE
        · exact (strFieldSpec_cons_ne (by decide)).mpr hF
        · exact (optFieldSpec_cons_ne (by decide)).mpr hI
        · exact (optFieldSpec_cons_ne (by decide)).mpr hL
        · exact (strFieldSpec_cons_ne (by decide)).mpr hM
        · exact (strFieldSpec_cons_ne (by decide)).mpr hMo
        · exact strFieldSpec_cons_self hO
        · exact (intFieldSpec_cons_ne (by decide)).mpr hR
        · exact (rdmaFieldSpec_cons_ne (by decide)).mpr hRd
        · exact (intFieldSpec_cons_ne (by decide)).mpr hS
        · rw [hasFlag_cons_ne (by decide)]; exact hT
      by_cases hf9 : f = "--readers"
      · subst hf9
        simp [toTokens, parseArgsFrom, applyFlag] at hp
        cases hpy : pyInt w with
        | none => simp [hpy] at hp
        | some n =>
          simp [hpy] at hp
          obtain ⟨hB, hE, hF, hI, hL, hM, hMo, hO, hR, hRd, hS, hT⟩ := ih _ cfg hwfr hp
          refine ⟨?_, ?_, ?_, ?_, ?_, ?_, ?_, ?_, ?_, ?_, ?_, ?_⟩
          · exact (intFieldSpec_cons_ne (by decide)).mpr hB
          · exact (intFieldSpec_cons_ne (by decide)).mpr hE
          · exact (strFieldSpec_cons_ne (by decide)).mpr hF
          · exact (optFieldSpec_cons_ne (by decide)).mpr hI
          · exact (optFieldSpec_cons_ne (by decide)).mpr hL
          · exact (strFieldSpec_cons_ne (by decide)).mpr hM
          · exact (strFieldSpec_cons_ne (by decide)).mpr hMo
          · exact (strFieldSpec_cons_ne (by decide)).mpr hO
          · exact intFieldSpec_cons_self hpy hR
          · exact (rdmaFieldSpec_cons_ne (by decide)).mpr hRd
          · exact (intFieldSpec_cons_ne (by decide)).mpr hS
          · rw [hasFlag_cons_ne (by decide)]; exact hT
      by_cases hf10 : f = "--rdma"
      · subst hf10
        simp [toTokens, parseArgsFrom, applyFlag] at hp
        obtain ⟨hB, hE, hF, hI, hL, hM, hMo, hO, hR, hRd, hS, hT⟩ := ih _ cfg hwfr hp
        refine ⟨?_, ?_, ?_, ?_, ?_, ?_, ?_, ?_, ?_, ?_, ?_, ?_⟩
        · exact (intFieldSpec_cons_ne (by decide)).mpr hB
        · exact (intFieldSpec_cons_ne (by decide)).mpr hE
        · exact (strFieldSpec_cons_ne (by decide)).mpr hF
        · exact (optFieldSpec_cons_ne (by decide)).mpr hI
        · exact (optFieldSpec_cons_ne (by decide)).mpr hL
        · exact (strFieldSpec_cons_ne (by decide)).mpr hM
        · exact (strFieldSpec_cons_ne (by decide)).mpr hMo
        · exact (strFieldSpec_cons_ne (by decide)).mpr hO
        · exact (intFieldSpec_cons_ne (by decide)).mpr hR
        · exact rdmaFieldSpec_cons_self hRd
        · exact (intFieldSpec_cons_ne (by decide)).mpr hS
        · rw [hasFlag_cons_ne (by decide)]; exact hT
      by_cases hf11 : f = "--steps"
      · subst hf11
        simp [toTokens, parseArgsFrom, applyFlag] at hp
        cases hpy : pyInt w with
        | none => simp [hpy] at hp
        | some n =>
          simp [hpy] at hp
          obtain ⟨hB, hE, hF, hI, hL, hM, hMo, hO, hR, hRd, hS, hT⟩ := ih _ cfg hwfr hp
          refine ⟨?_, ?_, ?_, ?_, ?_, ?_, ?_, ?_, ?_, ?_, ?_, ?_⟩
          · exact (intFieldSpec_cons_ne (by decide)).mpr hB
          · exact (intFieldSpec_cons_ne (by decide)).mpr hE
          · exact (strFieldSpec_cons_ne (by decide)).mpr hF
          · exact (optFieldSpec_cons_ne (by decide)).mpr hI
          · exact (optFieldSpec_cons_ne (by decide)).mpr hL
          · exact (strFieldSpec_cons_ne (by decide)).mpr hM
          · exact (strFieldSpec_cons_ne (by decide)).mpr hMo
          · exact (strFieldSpec_cons_ne (by decide)).mpr hO
          · exact (intFieldSpec_cons_ne (by decide)).mpr hR
          · exact (rdmaFieldSpec_cons_ne (by decide)).mpr hRd
          · exact intFieldSpec_cons_self hpy hS
          · rw [hasFlag_cons_ne (by decide)]; exact hT
      have hft : f ≠ "--tensorboard" := fun hf => Option.noConfusion (hhead.1 hf)
      have hnv : f ∉ valuedFlags := by simp [valuedFlags, hf1, hf2, hf3, hf4, hf5, hf6, hf7, hf8, hf9, hf10, hf11]
      simp [toTokens, parseArgsFrom, hft, applyFlag_not_valued hnv] at hp
    | none =>
      by_cases ht : f = "--tensorboard"
      · subst ht
        simp only [toTokens] at hp
        have hp2 : parseArgsFrom (toTokens rest) { c with tensorboard := true } = .ok cfg := by
          rcases htr : toTokens rest with _ | ⟨v2, rest2⟩ <;> rw [htr] at hp <;>
            simpa using hp
        obtain ⟨hB, hE, hF, hI, hL, hM, hMo, hO, hR, hRd, hS, hT⟩ := ih _ cfg hwfr hp2
        refine ⟨?_, ?_, ?_, ?_, ?_, ?_, ?_, ?_, ?_, ?_, ?_, ?_⟩
        · exact (intFieldSpec_cons_ne (by decide)).mpr hB
        · exact (intFieldSpec_cons_ne (by decide)).mpr hE
        · exact (strFieldSpec_cons_ne (by decide)).mpr hF
        · exact (optFieldSpec_cons_ne (by decide)).mpr hI
        · exact (optFieldSpec_cons_ne (by decide)).mpr hL
        · exact (strFieldSpec_cons_ne (by decide)).mpr hM
        · exact (strFieldSpec_cons_ne (by decide)).mpr hMo
        · exact (strFieldSpec_cons_ne (by decide)).mpr hO
        · exact (intFieldSpec_cons_ne (by decide)).mpr hR
        · exact (rdmaFieldSpec_cons_ne (by decide)).mpr hRd
        · exact (intFieldSpec_cons_ne (by decide)).mpr hS
        · simp [hasFlag]
          simpa using hT
      · have hnv : f ∉ valuedFlags := fun hin => (hhead.2 hin) rfl
        rcases htr : toTokens rest with _ | ⟨v2, rest2⟩
        · simp [toTokens, parseArgsFrom, ht, htr, hnv] at hp
        · simp [toTokens, parseArgsFrom, ht, htr, applyFlag_not_valued hnv] at hp

/-- Claim C1, as amended: for every well-formed argument list that the
configuration builder accepts, the resulting record's every field equals the
explicitly supplied value or, when absent, the declared default, with the
declared type coercion applied: batch size, epoch count, reader count and
step limit become integers and the tensorboard flag becomes a boolean — but
`--rdma` declares no coercion, so its field is the boolean default `false`
when the flag is absent and the raw supplied string when present.  Defaults:
batch_size=100, epochs=1, format="csv", mode="train", model="mnist_model",
output="predictions", readers=1, rdma=false, steps=1000, tensorboard=false. -/
theorem c1_config_builder_fields (l : List Arg) (cfg : Config)
    (hwf : wfArgs l) (hok : parse_args (toTokens l) = .ok cfg) :
    intFieldSpec "--batch_size" l 100 cfg.batch_size ∧
    intFieldSpec "--epochs" l 1 cfg.epochs ∧
    strFieldSpec "--format" l "csv" cfg.format ∧
    optFieldSpec "--images" l none cfg.images ∧
    optFieldSpec "--labels" l none cfg.labels ∧
    strFieldSpec "--mode" l "train" cfg.mode ∧
    strFieldSpec "--model" l "mnist_model" cfg.model ∧
    strFieldSpec "--output" l "predictions" cfg.output ∧
    intFieldSpec "--readers" l 1 cfg.readers ∧
    rdmaFieldSpec l (.bool false) cfg.rdma ∧
    intFieldSpec "--steps" l 1000 cfg.steps ∧
    cfg.tensorboard = hasFlag "--tensorboard" l := by
  obtain ⟨hB, hE, hF, hI, hL, hM, hMo, hO, hR, hRd, hS, hT⟩ :=
    parseArgsFrom_fields l defaultConfig cfg hwf hok
  exact ⟨hB, hE, hF, hI, hL, hM, hMo, hO, hR, hRd, hS, by simpa [defaultConfig] using hT⟩

/-- A concrete well-formed argument list exercising an `int`-coerced flag,
the uncoerced `--rdma` flag and the bare `--tensorboard` flag. -/
def demoArgs : List Arg :=
  [("--epochs", some "3"), ("--rdma", some "true"), ("--tensorboard", none)]

/-- The record the builder produces on `demoArgs`. -/
def demoConfig : Config :=
  { defaultConfig with epochs := 3, rdma := .str "true", tensorboard := true }

/-- Witness for C1: the amended field correspondence evaluated on the
concrete list `demoArgs`. -/
theorem c1_config_builder_fields_witness :
    wfArgs demoArgs ∧ parse_args (toTokens demoArgs) = .ok demoConfig ∧
    (intFieldSpec "--batch_size" demoArgs 100 demoConfig.batch_size ∧
     intFieldSpec "--epochs" demoArgs 1 demoConfig.epochs ∧
     strFieldSpec "--format" demoArgs "csv" demoConfig.format ∧
     optFieldSpec "--images" demoArgs none demoConfig.images ∧
     optFieldSpec "--labels" demoArgs none demoConfig.labels ∧
     strFieldSpec "--mode" demoArgs "train" demoConfig.mode ∧
     strFieldSpec "--model" demoArgs "mnist_model" demoConfig.model ∧
     strFieldSpec "--output" demoArgs "predictions" demoConfig.output ∧
     intFieldSpec "--readers" demoArgs 1 demoConfig.readers ∧
     rdmaFieldSpec demoArgs (.bool false) demoConfig.rdma ∧
     intFieldSpec "--steps" demoArgs 1000 demoConfig.steps ∧
     demoConfig.tensorboard = hasFlag "--tensorboard" demoArgs) :=
  ⟨by decide, rfl, c1_config_builder_fields demoArgs demoConfig (by decide) rfl⟩

/-- Counterexample to C1 as stated: supplying `--rdma True` leaves the rdma
field a raw string, not a boolean — no boolean coercion is declared for it
in cell 7. -/
theorem c1_rdma_counterexample :
    parse_args ["--rdma", "True"] = .ok { defaultConfig with rdma := .str "True" } ∧
    PyVal.isBool (PyVal.str "True") = false :=
  ⟨rfl, rfl⟩

/-- Accumulator lemma for C2: a well-formed argument list supplying a
`--format` value outside the declared choices makes the traversal fail from
any starting record. -/
theorem parseArgsFrom_format_bad :
    ∀ (l : List Arg) (c : Config) (v : String), wfArgs l →
      ("--format", some v) ∈ l → v ∉ formatChoices →
      ∃ e, parseArgsFrom (toTokens l) c = .error e := by
  intro l
  induction l with
  | nil =>
    intro c v _ hmem _
    exact absurd hmem (List.not_mem_nil _)
  | cons p rest ih =>
    intro c v hwf hmem hv
    have hwfr : wfArgs rest := fun q hq => hwf q (List.mem_cons_of_mem _ hq)
    rcases List.mem_cons.mp hmem with heq | htail
    · subst heq
      refine ⟨.invalidChoice "--format" v, ?_⟩
      simp [toTokens, parseArgsFrom, applyFlag, hv]
    · obtain ⟨f, w⟩ := p
      have hhead := hwf (f, w) (List.mem_cons_self _ _)
      cases w with
      | some w2 =>
        have hft : f ≠ "--tensorboard" := fun hf => Option.noConfusion (hhead.1 hf)
        cases happ : applyFlag f w2 c with
        | error e => exact ⟨e, by simp [toTokens, parseArgsFrom, hft, happ]⟩
        | ok c2 =>
          obtain ⟨e, he⟩ := ih c2 v hwfr htail hv
          exact ⟨e, by simp [toTokens, parseArgsFrom, hft, happ, he]⟩
      | none =>
        by_cases ht : f = "--tensorboard"
        · subst ht
          obtain ⟨e, he⟩ := ih { c with tensorboard := true } v hwfr htail hv
          refine ⟨e, ?_⟩
          simp only [toTokens]
          rcases htr : toTokens rest with _ | ⟨v2, rest2⟩ <;> rw [htr] at he <;>
            simpa using he
        · have hnv : f ∉ valuedFlags := fun hin => (hhead.2 hin) rfl
          rcases htr : toTokens rest with _ | ⟨v2, rest2⟩
          · exact ⟨.unrecognized f, by simp [toTokens, parseArgsFrom, ht, htr, hnv]⟩
          · exact ⟨.unrecognized f,
              by simp [toTokens, parseArgsFrom, ht, htr, applyFlag_not_valued hnv]⟩

/-- Claim C2, as amended: only `--format` is an enumerated-choice flag in
cell 7.  For every well-formed argument list supplying a format value
outside the declared choices `csv`/`pickle`/`tfr`, the configuration builder
fails with an error and produces no configuration record.  (`--mode`
declares no choices, so mode values are not validated — see the
counterexample.) -/
theorem c2_format_out_of_choices_fails (l : List Arg) (v : String)
    (hwf : wfArgs l) (hmem : ("--format", some v) ∈ l) (hv : v ∉ formatChoices) :
    ∃ e, parse_args (toTokens l) = .error e :=
  parseArgsFrom_format_bad l defaultConfig v hwf hmem hv

/-- Witness for C2: `--format json` is rejected. -/
theorem c2_format_out_of_choices_fails_witness :
    wfArgs [(("--format" : String), some "json")] ∧
    (("--format" : String), some "json") ∈ [(("--format" : String), some "json")] ∧
    "json" ∉ formatChoices ∧
    ∃ e, parse_args (toTokens [(("--format" : String), some "json")]) = .error e :=
  ⟨by decide, by decide, by decide,
   c2_format_out_of_choices_fails _ "json" (by decide) (by decide) (by decide)⟩

/-- Counterexample to C2 as stated: a mode value other than "train" and
"inference" is accepted, not rejected — `--mode` declares no choices, so the
builder succeeds and produces a record carrying the unvalidated string. -/
theorem c2_mode_counterexample :
    parse_args ["--mode", "bogus"] = .ok { defaultConfig with mode := "bogus" } ∧
    "bogus" ≠ "train" ∧ "bogus" ≠ "inference" :=
  ⟨rfl, by decide, by decide⟩

/-! ## Data ingestion (cells 15 and 24)

Both runs build
`images = sc.textFile(args.images).map(lambda ln: [int(x) for x in ln.split(',')])`,
`labels = sc.textFile(args.labels).map(lambda ln: [float(x) for x in ln.split(',')])`
and `dataRDD = images.zip(labels)`.  An RDD of text lines is modelled as the
list of the file's lines; each mapped element is a potential value
(`Option`, since `int`/`float` raise on malformed text), forced when the
pair is consumed.  Modelled from the spec: the external engine's `zip`
"pairs by position … bounded by the shorter sequence", with no
length-equality check. -/

/-- Decimal value of a digit list. -/
def natVal (l : List Char) : Nat := l.foldl (fun a c => a * 10 + (c.toNat - 48)) 0

/-- Unsigned part of Python `float(s)` restricted to decimal literals:
digits with an optional fractional part, as a rational. -/
def pyFloatCore (l : List Char) : Option Rat :=
  let ip := l.takeWhile Char.isDigit
  let rest := l.dropWhile Char.isDigit
  match rest with
  | [] => if ip.isEmpty then none else some ((natVal ip : Rat))
  | '.' :: fp =>
      if fp.all Char.isDigit && !(ip.isEmpty && fp.isEmpty) then
        some ((natVal ip : Rat) + (natVal fp : Rat) / ((10 : Rat) ^ fp.length))
      else none
  | _ => none

/-- Python `float(s)` restricted to signed decimal literals. -/
def pyFloat (s : String) : Option Rat :=
  match s.toList with
  | '-' :: rest => (pyFloatCore rest).map Neg.neg
  | '+' :: rest => pyFloatCore rest
  | l => pyFloatCore l

/-- Splitting accumulator for `splitComma`. -/
def splitCommaAux : List Char → List Char → List String
  | [], acc => [String.mk acc.reverse]
  | c :: cs, acc =>
      if c = ',' then String.mk acc.reverse :: splitCommaAux cs []
      else splitCommaAux cs (c :: acc)

/-- Python's `ln.split(',')`: the comma-separated fields of the line (the
empty line yields one empty field, as in Python). -/
def splitComma (s : String) : List String := splitCommaAux s.toList []

example : splitComma "1,22,3" = ["1", "22", "3"] := by decide

/-- The per-line image parse of cells 15/24:
`[int(x) for x in ln.split(',')]`. -/
def parseImageLine (ln : String) : Option (List Int) :=
  (splitComma ln).mapM pyInt

/-- The per-line label parse of cells 15/24:
`[float(x) for x in ln.split(',')]`. -/
def parseLabelLine (ln : String) : Option (List Rat) :=
  (splitComma ln).mapM pyFloat

/-- Forcing a consumed sequence of zipped potential parses: the action that
materialises the `dataRDD`, failing if any consumed line fails its numeric
parse. -/
def forcePairs : List (Option (List Int) × Option (List Rat)) →
    Option (List (List Int × List Rat))
  | [] => some []
  | p :: ps => do
      let a ← p.1
      let b ← p.2
      let rest ← forcePairs ps
      pure ((a, b) :: rest)

/-- Cell 15's ingestion pipeline for the training run: map the parses over
the two line sequences, zip positionally, and force each consumed pair. -/
def trainIngestion (imgLines lblLines : List String) :
    Option (List (List Int × List Rat)) :=
  forcePairs ((imgLines.map parseImageLine).zip (lblLines.map parseLabelLine))

/-- Cell 24's ingestion pipeline for the inference run — textually the same
`textFile`/`map`/`zip` combination as cell 15. -/
def inferenceIngestion (imgLines lblLines : List String) :
    Option (List (List Int × List Rat)) :=
  forcePairs ((imgLines.map parseImageLine).zip (lblLines.map parseLabelLine))

example : parseImageLine "1,2" = some [1, 2] := by decide

example : (parseLabelLine "0.5").isSome := by decide

example : (trainIngestion ["1,2", "3,4"] ["0.5", "1.0"]).isSome := by decide

/-- Core ingestion lemma: whenever every consumed line parses, ingestion
succeeds, yields exactly `min` of the two line counts many pairs, and the
`i`-th pair joins the parses of the `i`-th lines. -/
theorem trainIngestion_core :
    ∀ (imgs lbls : List String),
      (∀ ln ∈ imgs.take lbls.length, (parseImageLine ln).isSome) →
      (∀ ln ∈ lbls.take imgs.length, (parseLabelLine ln).isSome) →
      ∃ rs, trainIngestion imgs lbls = some rs ∧
        rs.length = min imgs.length lbls.length ∧
        ∀ (i : Nat) li ll, imgs[i]? = some li → lbls[i]? = some ll →
          ∃ a b, parseImageLine li = some a ∧ parseLabelLine ll = some b ∧
            rs[i]? = some (a, b) := by
  intro imgs
  induction imgs with
  | nil =>
    intro lbls _ _
    refine ⟨[], rfl, by simp, ?_⟩
    intro i li ll h1 _
    simp at h1
  | cons li imgs ihi =>
    intro lbls himg hlbl
    cases lbls with
    | nil =>
      refine ⟨[], rfl, by simp, ?_⟩
      intro i li2 ll2 _ h2
      simp at h2
    | cons ll lbls =>
      have h1 : (parseImageLine li).isSome := by
        apply himg
        simp
      have h2 : (parseLabelLine ll).isSome := by
        apply hlbl
        simp
      obtain ⟨a, ha⟩ := Option.isSome_iff_exists.mp h1
      obtain ⟨b, hb⟩ := Option.isSome_iff_exists.mp h2
      have himgr : ∀ ln ∈ imgs.take lbls.length, (parseImageLine ln).isSome := by
        intro ln hln
        have hmem : ln ∈ li :: imgs.take lbls.length := List.mem_cons_of_mem _ hln
        apply himg
        simpa [List.take_succ_cons] using hmem
      have hlblr : ∀ ln ∈ lbls.take imgs.length, (parseLabelLine ln).isSome := by
        intro ln hln
        have hmem : ln ∈ ll :: lbls.take imgs.length := List.mem_cons_of_mem _ hln
        apply hlbl
        simpa [List.take_succ_cons] using hmem
      obtain ⟨rs, hrs, hlen, hidx⟩ := ihi lbls himgr hlblr
      refine ⟨(a, b) :: rs, ?_, ?_, ?_⟩
      · simp only [trainIngestion] at hrs
        show (parseImageLine li).bind (fun a2 => (parseLabelLine ll).bind (fun b2 =>
            (forcePairs ((imgs.map parseImageLine).zip (lbls.map parseLabelLine))).bind
              (fun rest => some ((a2, b2) :: rest)))) = some ((a, b) :: rs)
        rw [ha, hb, hrs]
        rfl
      · simp [hlen, Nat.succ_min_succ]
      · intro i li2 ll2 hg1 hg2
        cases i with
        | zero =>
          simp only [List.getElem?_cons_zero, Option.some.injEq] at hg1 hg2
          subst hg1
          subst hg2
          exact ⟨a, b, ha, hb, by simp⟩
        | succ n =>
          simp only [List.getElem?_cons_succ] at hg1 hg2 ⊢
          exact hidx n li2 ll2 hg1 hg2

/-- Claim C3: for every pair of image and label line sequences with equal
line counts N whose lines all parse, ingestion produces exactly N paired
records, the i-th pair joining the i-th image record (integers) with the
i-th label record (rationals standing for the parsed floats). -/
theorem c3_equal_length_ingestion (imgs lbls : List String)
    (hlen : imgs.length = lbls.length)
    (himg : ∀ ln ∈ imgs, (parseImageLine ln).isSome)
    (hlbl : ∀ ln ∈ lbls, (parseLabelLine ln).isSome) :
    ∃ rs, trainIngestion imgs lbls = some rs ∧ rs.length = imgs.length ∧
      ∀ (i : Nat) li ll, imgs[i]? = some li → lbls[i]? = some ll →
        ∃ a b, parseImageLine li = some a ∧ parseLabelLine ll = some b ∧
          rs[i]? = some (a, b) := by
  obtain ⟨rs, h1, h2, h3⟩ := trainIngestion_core imgs lbls
    (fun ln hln => himg ln (List.take_subset _ _ hln))
    (fun ln hln => hlbl ln (List.take_subset _ _ hln))
  exact ⟨rs, h1, by rw [h2, hlen, Nat.min_self], h3⟩

/-- Concrete two-line image file for the C3 witness. -/
def demoImgLines : List String := ["1,2", "3,4"]

/-- Concrete two-line label file for the C3 witness. -/
def demoLblLines : List String := ["0.5", "1.0"]

/-- Witness for C3 on a concrete pair of two-line files. -/
theorem c3_equal_length_ingestion_witness :
    demoImgLines.length = demoLblLines.length ∧
    (∀ ln ∈ demoImgLines, (parseImageLine ln).isSome) ∧
    (∀ ln ∈ demoLblLines, (parseLabelLine ln).isSome) ∧
    ∃ rs, trainIngestion demoImgLines demoLblLines = some rs ∧
      rs.length = demoImgLines.length ∧
      ∀ (i : Nat) li ll, demoImgLines[i]? = some li → demoLblLines[i]? = some ll →
        ∃ a b, parseImageLine li = some a ∧ parseLabelLine ll = some b ∧
          rs[i]? = some (a, b) :=
  ⟨rfl, by decide, by decide,
   c3_equal_length_ingestion demoImgLines demoLblLines rfl (by decide) (by decide)⟩

/-- Claim C4: for line sequences with unequal counts, ingestion performs no
length-equality check: it silently succeeds (no error is reported), the
pairs are bounded by the shorter sequence's length, and at least one side
is strictly truncated. -/
theorem c4_unequal_length_silent_truncation (imgs lbls : List String)
    (hne : imgs.length ≠ lbls.length)
    (himg : ∀ ln ∈ imgs.take lbls.length, (parseImageLine ln).isSome)
    (hlbl : ∀ ln ∈ lbls.take imgs.length, (parseLabelLine ln).isSome) :
    ∃ rs, trainIngestion imgs lbls = some rs ∧
      rs.length = min imgs.length lbls.length ∧
      (rs.length < imgs.length ∨ rs.length < lbls.length) := by
  obtain ⟨rs, h1, h2, _⟩ := trainIngestion_core imgs lbls himg hlbl
  refine ⟨rs, h1, h2, ?_⟩
  omega

/-- Witness for C4: three image lines against two label lines silently
yield two pairs. -/
theorem c4_unequal_length_silent_truncation_witness :
    (["1", "2", "3"] : List String).length ≠ (["0.0", "1.0"] : List String).length ∧
    ∃ rs, trainIngestion ["1", "2", "3"] ["0.0", "1.0"] = some rs ∧
      rs.length = min (["1", "2", "3"] : List String).length
        (["0.0", "1.0"] : List String).length ∧
      (rs.length < (["1", "2", "3"] : List String).length ∨
        rs.length < (["0.0", "1.0"] : List String).length) :=
  ⟨by decide,
   c4_unequal_length_silent_truncation ["1", "2", "3"] ["0.0", "1.0"]
     (by decide) (by decide) (by decide)⟩

/-- Claim C10: the ingestion pipeline of the training run (cell 15) and the
one of the inference run (cell 24) are the same function of the image and
label line sequences: on identical inputs they produce identical
paired-record sequences. -/
theorem c10_train_inference_ingestion_agree :
    ∀ imgLines lblLines,
      trainIngestion imgLines lblLines = inferenceIngestion imgLines lblLines :=
  fun _ _ => rfl

/-! ## Cluster orchestration call sites (cells 14 and 23) -/

/-- The input-feeding modes of the cluster API (`TFCluster.InputMode`). -/
inductive InputMode where
  | SPARK
  | TENSORFLOW
deriving Repr, DecidableEq

/-- The argument tuple the notebook passes to `TFCluster.run` after the
Spark context, worker function and configuration record: executor count,
parameter-server count, the dashboard (tensorboard) flag and the
input-feeding mode. -/
structure TFClusterRunArgs where
  numExecutors : Nat
  numPS : Nat
  tensorboard : Bool
  inputMode : InputMode
deriving Repr, DecidableEq

/-- Cell 14: `TFCluster.run(sc, mnist_dist.map_fun, args, num_executors, 1,
args.tensorboard, TFCluster.InputMode.SPARK)` — the training run forwards
the configured tensorboard flag. -/
def trainClusterCall (cfg : Config) (numExecutors : Nat) : TFClusterRunArgs :=
  { numExecutors := numExecutors
    numPS := 1
    tensorboard := cfg.tensorboard
    inputMode := .SPARK }

/-- Cell 23: `TFCluster.run(sc, mnist_dist.map_fun, args, num_executors, 1,
False, TFCluster.InputMode.SPARK)` — the inference run passes the literal
`False` in the dashboard position. -/
def inferenceClusterCall (_cfg : Config) (numExecutors : Nat) : TFClusterRunArgs :=
  { numExecutors := numExecutors
    numPS := 1
    tensorboard := false
    inputMode := .SPARK }

/-- Claim C9: for every configuration, the inference run provisions its
cluster with the dashboard-enable argument fixed to false, regardless of the
configured tensorboard flag; only the training run forwards the configured
flag to the cluster orchestrator. -/
theorem c9_inference_tensorboard_fixed_false :
    ∀ (cfg : Config) (n : Nat),
      (inferenceClusterCall cfg n).tensorboard = false ∧
      (trainClusterCall cfg n).tensorboard = cfg.tensorboard :=
  fun _ _ => ⟨rfl, rfl⟩

/-! ## Run modes and artifacts (C5)

The artifact a run leaves behind is decided by the worker entry point
`mnist_dist.map_fun` together with the notebook's two run sections;
`examples/mnist/spark/mnist_dist.py` is repository code that is not under
`src/`. -/

/-- The artifacts a run can leave behind. -/
structure RunArtifacts where
  modelDir : Bool
  outputDir : Bool
deriving Repr, DecidableEq

/-- Modelled from the spec: the run executor of `mnist_dist.map_fun` and the
notebook's run sections (`examples/mnist/spark/mnist_dist.py` is not under
`src/`): "mode determines whether a model directory is produced or an output
directory is produced, never both" — a train run writes the model directory,
an inference run writes the output directory. -/
def runArtifacts (mode : String) : RunArtifacts :=
  if mode = "train" then { modelDir := true, outputDir := false }
  else if mode = "inference" then { modelDir := false, outputDir := true }
  else { modelDir := false, outputDir := false }

/-- Claim C5: every run is in exactly one mode, train or inference, and the
mode determines the artifact produced: a train run produces the model
directory and no output directory, an inference run the output directory and
no model directory — never both in one run. -/
theorem c5_mode_determines_artifact (mode : String)
    (h : mode = "train" ∨ mode = "inference") :
    (runArtifacts mode).modelDir ≠ (runArtifacts mode).outputDir ∧
    (mode = "train" →
      (runArtifacts mode).modelDir = true ∧ (runArtifacts mode).outputDir = false) ∧
    (mode = "inference" →
      (runArtifacts mode).modelDir = false ∧ (runArtifacts mode).outputDir = true) ∧
    ¬((runArtifacts mode).modelDir = true ∧ (runArtifacts mode).outputDir = true) := by
  rcases h with h | h <;> subst h <;>
    exact ⟨by decide, by decide, by decide, by decide⟩

/-- Witness for C5 at the concrete mode "train". -/
theorem c5_mode_determines_artifact_witness :
    ("train" = "train" ∨ "train" = "inference") ∧
    ((runArtifacts "train").modelDir ≠ (runArtifacts "train").outputDir ∧
     ("train" = "train" →
       (runArtifacts "train").modelDir = true ∧ (runArtifacts "train").outputDir = false) ∧
     ("train" = "inference" →
       (runArtifacts "train").modelDir = false ∧ (runArtifacts "train").outputDir = true) ∧
     ¬((runArtifacts "train").modelDir = true ∧ (runArtifacts "train").outputDir = true)) :=
  ⟨Or.inl rfl, c5_mode_determines_artifact "train" (Or.inl rfl)⟩

/-! ## Run executor state machine and shutdown drain (C6)

`cluster.train`, `cluster.inference` and `cluster.shutdown` live in
`tensorflowonspark/TFCluster.py`, repository code that is not under
`src/`. -/

/-- The run executor's phases (spec §4.5). -/
inductive Phase where
  | created
  | running
  | draining
  | shutdown
deriving Repr, DecidableEq

/-- A provisioned cluster: its phase, the records submitted to it, the
records already consumed by workers (in order), the not-yet-consumed queue
and the provisioned worker count. -/
structure ClusterState (α : Type) where
  phase : Phase
  submitted : List α
  consumed : List α
  queue : List α
  workers : Nat

/-- Workers consuming the queued records one at a time, oldest first. -/
def drainLoop {α : Type} : List α → List α → List α
  | [], done => done
  | r :: q, done => drainLoop q (done ++ [r])

/-- Modelled from the spec: `cluster.shutdown()` of
`tensorflowonspark/TFCluster.py` (not under `src/`) "blocks until every
queued record has been consumed by the workers, guaranteeing no data loss on
shutdown, then releases all provisioned workers": it returns only once the
workers have drained the whole queue, then zeroes the worker count. -/
def TFshutdown {α : Type} (s : ClusterState α) : ClusterState α :=
  { phase := .shutdown
    submitted := s.submitted
    consumed := drainLoop s.queue s.consumed
    queue := []
    workers := 0 }

theorem drainLoop_eq {α : Type} :
    ∀ (q done : List α), drainLoop q done = done ++ q := by
  intro q
  induction q with
  | nil => intro done; simp [drainLoop]
  | cons r q ih => intro done; simp [drainLoop, ih]

/-- Claim C6: for every run that reaches the draining state, with its
submitted records split into the consumed ones and the still-queued ones,
the shutdown call returns only with every submitted record consumed by the
workers — no submitted record is lost — and with all provisioned workers
released. -/
theorem c6_shutdown_drains_all {α : Type} (s : ClusterState α)
    (_hphase : s.phase = .draining)
    (hacct : s.submitted = s.consumed ++ s.queue) :
    (TFshutdown s).consumed = s.submitted ∧
    (TFshutdown s).queue = [] ∧
    (TFshutdown s).workers = 0 ∧
    (TFshutdown s).phase = .shutdown := by
  refine ⟨?_, rfl, rfl, rfl⟩
  rw [hacct]
  exact drainLoop_eq s.queue s.consumed

/-- A concrete draining cluster for the C6 witness: three submitted records,
one already consumed, two still queued, three workers provisioned. -/
def demoDrainingState : ClusterState Nat :=
  { phase := .draining
    submitted := [1, 2, 3]
    consumed := [1]
    queue := [2, 3]
    workers := 3 }

/-- Witness for C6 on the concrete draining cluster. -/
theorem c6_shutdown_drains_all_witness :
    demoDrainingState.phase = .draining ∧
    demoDrainingState.submitted = demoDrainingState.consumed ++ demoDrainingState.queue ∧
    ((TFshutdown demoDrainingState).consumed = demoDrainingState.submitted ∧
     (TFshutdown demoDrainingState).queue = [] ∧
     (TFshutdown demoDrainingState).workers = 0 ∧
     (TFshutdown demoDrainingState).phase = .shutdown) :=
  ⟨rfl, rfl, c6_shutdown_drains_all demoDrainingState rfl rfl⟩

/-! ## Inference output (C7) -/

/-- Modelled from the spec: `cluster.inference(dataRDD)` of
`tensorflowonspark/TFCluster.py` (not under `src/`) "consumes records once
and writes one prediction per input record": every record is fed exactly
once through the per-record prediction function. -/
def TFinference {α β : Type} (predict : α → β) (data : List α) : List β :=
  data.map predict

/-- Modelled from the spec: `predictions.saveAsTextFile(args.output)` of the
external engine writes newline-delimited text, one line per prediction. -/
def saveAsTextFile {β : Type} (toLine : β → String) (preds : List β) : List String :=
  preds.map toLine

/-- Claim C7: for every inference run over a paired-record sequence of
length N, the output location contains exactly N prediction lines after
completion, the i-th line being the prediction computed from the i-th input
record — each record consumed exactly once. -/
theorem c7_one_prediction_per_record {α β : Type}
    (predict : α → β) (toLine : β → String) (data : List α) :
    (saveAsTextFile toLine (TFinference predict data)).length = data.length ∧
    ∀ (i : Nat), (saveAsTextFile toLine (TFinference predict data))[i]? =
      (data[i]?).map (fun r => toLine (predict r)) := by
  constructor
  · simp [saveAsTextFile, TFinference]
  · intro i
    simp [saveAsTextFile, TFinference, Option.map_map]
    rfl

/-! ## Output/model clearing (cells 13 and 22) -/

/-- A filesystem path, as its list of segments. -/
abbrev FsPath := List String

/-- Modelled from the spec: the external `rm -rf path` invoked by
`subprocess.call(["rm", "-rf", args.model])` (cell 13) and
`subprocess.call(["rm", "-rf", args.output])` (cell 22) "removes it
recursively and tolerates its non-existence (no error if absent)".  The
filesystem is the list of existing paths; the call exits with status 0 and
removes exactly the entries at or below the given path. -/
def rmRf (p : FsPath) (fs : List FsPath) : Nat × List FsPath :=
  (0, fs.filter (fun q => !(List.isPrefixOf p q)))

/-- Claim C8: the clearing step never raises an error (exit status 0); on a
filesystem in which the path does not exist it leaves the filesystem
unchanged; in general it removes exactly the entries at or under the path
and keeps every entry outside it. -/
theorem c8_rm_rf_clearing (p : FsPath) (fs : List FsPath) :
    (rmRf p fs).1 = 0 ∧
    ((∀ q ∈ fs, List.isPrefixOf p q = false) → (rmRf p fs).2 = fs) ∧
    (∀ q ∈ (rmRf p fs).2, q ∈ fs ∧ List.isPrefixOf p q = false) ∧
    (∀ q ∈ fs, List.isPrefixOf p q = false → q ∈ (rmRf p fs).2) := by
  refine ⟨rfl, ?_, ?_, ?_⟩
  · intro habs
    simp only [rmRf]
    apply List.filter_eq_self.mpr
    intro q hq
    simp [habs q hq]
  · intro q hq
    simp only [rmRf, List.mem_filter] at hq
    refine ⟨hq.1, ?_⟩
    simpa using hq.2
  · intro q hq hnp
    simp only [rmRf, List.mem_filter]
    exact ⟨hq, by simp [hnp]⟩

/-- A concrete filesystem without the model path, for the C8 witness. -/
def demoFs : List FsPath := [["data", "train"], ["predictions", "part-00000"]]

/-- Witness for C8: clearing the absent path `mnist_model` exits with status
0 and leaves the filesystem unchanged. -/
theorem c8_rm_rf_clearing_witness :
    (rmRf ["mnist_model"] demoFs).1 = 0 ∧
    (∀ q ∈ demoFs, List.isPrefixOf ["mnist_model"] q = false) ∧
    (rmRf ["mnist_model"] demoFs).2 = demoFs :=
  ⟨(c8_rm_rf_clearing ["mnist_model"] demoFs).1, by decide,
   (c8_rm_rf_clearing ["mnist_model"] demoFs).2.1 (by decide)⟩

end MnistSpark
